import Mathlib

/-!
Verification development for the Reddit code-assistant indexing and retrieval
pipeline (`backend/app`): chunk extraction (`indexing.py`), text shaping and
index construction (`vector_store.py`), and the classify/retrieve/answer flow
(`main.py`).

Python strings are modelled as Lean `String` (a list of characters); the
string primitives used by the code (`strip`, `upper`, slicing, `split`,
substring containment) are defined below over `String.data`.  External
collaborators (the GigaChat generative capability, the embedding gateway and
the ChromaDB vector store) are modelled as explicit parameters; where their
semantics matters it is taken from the specification's interface contract and
marked as such.
-/

/-! ## Python string primitives -/

/-- The characters Python `str.strip()` removes (ASCII whitespace). -/
def isPySpace (c : Char) : Bool :=
  c = ' ' || c = '\t' || c = '\n' || c = '\r' || c = '\x0b' || c = '\x0c'

/-- Python `s.strip()`: drop leading and trailing whitespace. -/
def pyStrip (s : String) : String :=
  String.mk (((s.data.dropWhile isPySpace).reverse.dropWhile isPySpace).reverse)

/-- Python `s.upper()` (character-wise uppercasing). -/
def pyUpper (s : String) : String :=
  String.mk (s.data.map Char.toUpper)

/-- Python `s[:n]` for `n >= 0`. -/
def pyTake (n : Nat) (s : String) : String :=
  String.mk (s.data.take n)

/-- Python `s[-n:]` for `n >= 0`.  Note the Python quirk: `s[-0:]` is the
whole string, not the empty string. -/
def pySliceLast (n : Nat) (s : String) : String :=
  if n = 0 then s else String.mk (s.data.drop (s.data.length - n))

/-- Python `s.split(":")[0]`: the prefix of `s` before the first colon
(the whole string when no colon occurs). -/
def pySplitColonHead (s : String) : String :=
  String.mk (s.data.takeWhile (fun c => c ≠ ':'))

/-- Python substring containment over character lists: `needle in hay`. -/
def listContains (needle : List Char) : List Char → Bool
  | [] => needle.isEmpty
  | c :: rest => needle.isPrefixOf (c :: rest) || listContains needle rest

/-- Python `needle in hay` on strings. -/
def strContains (hay needle : String) : Bool :=
  listContains needle.data hay.data

/-! ## Text Shaper (`vector_store._shorten_for_embedding`) -/

/-- `vector_store.MAX_CHARS_FOR_EMBEDDING`. -/
def MAX_CHARS_FOR_EMBEDDING : Nat := 500

/-- The marker text inserted between the head and tail segments. -/
def TRUNCATION_MARKER : String := "\n...\n# [TRUNCATED]\n...\n"

/-- `vector_store._shorten_for_embedding`: strip the text; if it fits the
ceiling return it, otherwise keep `text[:half]` and `text[-half:]` with the
truncation marker between them (`half = max_chars // 2`). -/
def shorten_for_embedding (text : String) (max_chars : Nat) : String :=
  let text := pyStrip text
  if text.length ≤ max_chars then text
  else
    let half := max_chars / 2
    let head := pyTake half text
    let tail := pySliceLast half text
    head ++ TRUNCATION_MARKER ++ tail

/-! ## Query Router and ask flow (`main.py`)

`ask_gigachat` (the generative capability) is external; it is passed in as a
function `gen : String → String`.  The ChromaDB collection query is external
as well; it is part of the environment (`Env.query`), modelled from the
spec's Index Store contract. -/

/-- Metadata stored alongside each chunk (`vector_store.build_index`).
`language` uses `getattr(ch, "language", "python")`; `CodeChunk` has no
`language` attribute, so it is always `"python"`. -/
structure ChunkMeta where
  file_path : String
  kind : String
  name : String
  start_line : Nat
  end_line : Nat
  language : String
deriving DecidableEq

/-- `main.Snippet` (response model). -/
structure Snippet where
  file_path : String
  start_line : Nat
  end_line : Nat
  code : String
deriving DecidableEq

/-- `main.AskResponse` (response model). -/
structure AskResponse where
  answer : String
  snippets : List Snippet
  mode : String
deriving DecidableEq

/-- One row of a ChromaDB query result (`search_similar` builds one match
per returned id, with the stored document, metadata and optional distance). -/
structure MatchRec (D : Type) where
  id : String
  document : String
  metadata : ChunkMeta
  distance : Option D
deriving DecidableEq

/-- External capabilities used by the query path:
`gen` is `ask_gigachat`; `embed_text` the embedding gateway for one string;
`query` the Index Store k-NN lookup (external vector database, modelled from
the spec: returns up to `k` nearest rows with document, metadata, distance). -/
structure Env (E D : Type) where
  gen : String → String
  embed_text : String → E
  query : E → Nat → List (MatchRec D)

/-- Instrumentation: how many embedding calls and Index Store queries an
`ask` invocation performs. -/
structure CallCount where
  embed_calls : Nat
  query_calls : Nat
deriving DecidableEq

/-- The classification prompt of `main.classify_question` (an f-string over
the user's question). -/
def classify_prompt (query : String) : String :=
  "\nТы — классификатор запросов для ассистента по коду монорепозитория Reddit.\n\nТвоя задача — отнести вопрос к одному из двух классов:\n\n1) CODE — если вопрос связан с:\n   - кодом, функциями, классами, модулями;\n   - ошибками, логами, traceback, багами;\n   - структурами файлов, конфигами, настройками, базой данных;\n   - работой API, контроллеров, роутов, бекенда, авторизации, регистрацией;\n   - любыми изменениями/доработками в коде или инфраструктуре проекта.\n\n2) CHAT — если вопрос:\n   - не связан с кодом и репозиторием (мемы, жизнь, философия, отношения, шутки);\n   - абстрактный разговор, small talk, вопросы не про программирование;\n   - общие вопросы про мир, без привязки к репозиторию.\n\nФОРМАТ ОТВЕТА:\nОтветь ОДНИМ СЛОВОМ БЕЗ ОБЪЯСНЕНИЙ:\nЛибо 'CODE', либо 'CHAT'.\n\nНЕ добавляй никаких комментариев, пояснений или форматирования.\n\nВопрос пользователя:\n\"\"\"" ++ query ++ "\"\"\"\n"

/-- The pure decision step of `main.classify_question`, as a function of the
raw generator response: empty response defaults to CODE (`if not raw`);
otherwise the stripped, uppercased response is tested for the two tokens,
with ambiguous results defaulting to CODE. -/
def classify_decision (raw : String) : String :=
  if raw = "" then "CODE"
  else
    let normalized := pyUpper (pyStrip raw)
    if strContains normalized ("CODE") && !strContains normalized ("CHAT") then "CODE"
    else if strContains normalized ("CHAT") && !strContains normalized ("CODE") then "CHAT"
    else "CODE"

/-- `main.classify_question`: send the classification prompt to the
generative capability and decide from its raw response. -/
def classify_question (gen : String → String) (query : String) : String :=
  classify_decision (gen (classify_prompt query))

/-- The CHAT-branch prompt of `main.ask` (forwards the raw question). -/
def general_prompt (query : String) : String :=
  "\nТы — дружелюбный ассистент. Ответь кратко и по-человечески.\nВопрос: \"" ++ query ++ "\"\n"

/-- The zero-matches fallback prompt of `main.ask`. -/
def fallback_prompt (query : String) : String :=
  "\nНе найдено релевантных фрагментов.\nВопрос: \"" ++ query ++ "\"\n"

/-- One numbered entry of the context block assembled in `main.ask`. -/
def context_part (im : Nat × MatchRec D) : String :=
  toString im.fst ++ ") Файл: " ++ im.snd.metadata.file_path ++ " (строки " ++ toString im.snd.metadata.start_line ++ "-" ++ toString im.snd.metadata.end_line ++ ")\n```python\n" ++ im.snd.document ++ "\n```"

/-- The grounded RAG prompt of `main.ask` (question plus context block). -/
def rag_prompt (query context_text : String) : String :=
  "\nТы — инженерный ассистент по коду большого монорепозитория Reddit.\n\nУ ТЕБЯ ЕСТЬ ТОЛЬКО ЭТИ ДАННЫЕ:\n- вопрос пользователя (на естественном языке),\n- несколько фрагментов кода (functions/classes) с путями к файлам и номерами строк.\n\nТВОЯ ЗАДАЧА:\n1. Понять, что хочет пользователь.\n2. Найти среди переданных фрагментов те, которые логически связаны с этим запросом.\n3. Объяснить, как работает соответствующий код.\n4. Подсказать, какие изменения можно внести.\n\nОЧЕНЬ ВАЖНЫЕ ПРАВИЛА:\n- Отвечай ТОЛЬКО на основе предоставленных фрагментов кода.\n- НЕЛЬЗЯ придумывать несуществующие файлы, функции или параметры.\n- Всегда указывай file_path и номера строк для важных мест.\n\nВОПРОС ПОЛЬЗОВАТЕЛЯ:\n\"\"\"" ++ query ++ "\"\"\"\nРЕЛЕВАНТНЫЕ ФРАГМЕНТЫ КОДА (с путями и строками):\n" ++ context_text ++ "\nСформулируй ответ строго в указанном выше формате Markdown.\n"

/-- `vector_store.search_similar`: embed the query (one embedding-gateway
call), run one Index Store query, and return the matches.  The returned
`CallCount` records the one embedding call and the one store query. -/
def search_similar (env : Env E D) (query : String) (k : Nat) :
    List (MatchRec D) × CallCount :=
  let query_vec := env.embed_text query
  (env.query query_vec k, ⟨1, 1⟩)

/-- `main.ask`: classify, then either answer directly (CHAT), or retrieve
with `k = 5` and answer with the fallback prompt (zero matches) or the
grounded prompt (matches present). -/
def ask (env : Env E D) (question : String) : AskResponse × CallCount :=
  let mode := classify_question env.gen question
  if mode = "CHAT" then
    (⟨env.gen (general_prompt question), [], "CHAT"⟩, ⟨0, 0⟩)
  else
    let res := search_similar env question 5
    let found := res.fst
    let snippets := found.map (fun m =>
      ⟨m.metadata.file_path, m.metadata.start_line, m.metadata.end_line, m.document⟩)
    let context_parts := (List.enumFrom 1 found).map context_part
    if snippets = [] then
      (⟨env.gen (fallback_prompt question), [], "CODE"⟩, res.snd)
    else
      (⟨env.gen (rag_prompt question (String.intercalate ("\n\n") context_parts)), snippets, "CODE"⟩, res.snd)

/-! ## Chunk Extractor (`indexing.py`)

tree-sitter is external: `parser.parse` always yields a syntax tree (it
never raises; malformed input parses to a tree containing error nodes), so a
parsed file is modelled as its decoded character content together with the
root node of that tree.  Node byte offsets index into the decoded content
and `start_point`/`end_point` are `(row, column)` pairs, as in tree-sitter. -/

/-- A tree-sitter syntax-tree node: type tag, start/end points (row, column),
start/end byte offsets, children. -/
inductive TSNode : Type where
  | node (typ : String) (startPoint endPoint : Nat × Nat)
         (startByte endByte : Nat) (children : List TSNode)

def TSNode.typ : TSNode → String
  | .node t _ _ _ _ _ => t

def TSNode.startPoint : TSNode → Nat × Nat
  | .node _ sp _ _ _ _ => sp

def TSNode.endPoint : TSNode → Nat × Nat
  | .node _ _ ep _ _ _ => ep

def TSNode.startByte : TSNode → Nat
  | .node _ _ _ sb _ _ => sb

def TSNode.endByte : TSNode → Nat
  | .node _ _ _ _ eb _ => eb

def TSNode.children : TSNode → List TSNode
  | .node _ _ _ _ _ cs => cs

/-- `indexing.CodeChunk`. -/
structure CodeChunk where
  file_path : String
  start_line : Nat
  end_line : Nat
  kind : String
  name : String
  signature : Option String
  docstring : Option String
  code : String
deriving DecidableEq

/-- `indexing.node_text`: `source[node.start_byte:node.end_byte]` decoded. -/
def node_text (source : String) (n : TSNode) : String :=
  String.mk ((source.data.drop n.startByte).take (n.endByte - n.startByte))

/-- Inner loop of `indexing.get_docstring_from_body` over the statements of
one block: return the text of the first `expression_statement` whose first
child is a `string` literal; otherwise keep scanning. -/
def docstringInBlock (source : String) : List TSNode → Option String
  | [] => none
  | g :: rest =>
    match (if g.typ = "expression_statement" then g.children.head? else none) with
    | some lit =>
      if lit.typ = "string" then some (node_text source lit)
      else docstringInBlock source rest
    | none => docstringInBlock source rest

/-- Outer loop of `indexing.get_docstring_from_body` over a node's children:
scan each `block` child for a docstring. -/
def docstringSearch (source : String) : List TSNode → Option String
  | [] => none
  | c :: rest =>
    if c.typ = "block" then
      match docstringInBlock source c.children with
      | some d => some d
      | none => docstringSearch source rest
    else docstringSearch source rest

/-- `indexing.get_docstring_from_body`. -/
def get_docstring_from_body (source : String) (n : TSNode) : Option String :=
  docstringSearch source n.children

/-- `indexing.get_signature_from_function`:
`node_text(source, node).split(":")[0].strip()`. -/
def get_signature_from_function (source : String) (n : TSNode) : String :=
  pyStrip (pySplitColonHead (node_text source n))

/-- The identifier-search loop used for class and function names: the text of
the first `identifier` child, or `""` when none exists. -/
def firstIdentifierName (source : String) : List TSNode → String
  | [] => ""
  | c :: rest =>
    if c.typ = "identifier" then node_text source c
    else firstIdentifierName source rest

/-- A filesystem path, as its components. -/
structure PyPath where
  parts : List String
deriving DecidableEq

/-- `Path.name`: the final path component. -/
def PyPath.name (p : PyPath) : String :=
  p.parts.getLastD ("")

/-- `indexing.REDDIT_ROOT` (the indexed root).  The concrete prefix is
environment-dependent; only its role as a path prefix matters. -/
def REDDIT_ROOT : List String := ["data", "reddit"]

def joinParts (l : List String) : String :=
  String.intercalate ("/") l

/-- `indexing.try_relative_path`: the path relative to `REDDIT_ROOT` when it
lies under that root, else the path itself (`relative_to` raising
`ValueError` is caught). -/
def try_relative_path (p : PyPath) : String :=
  if REDDIT_ROOT.isPrefixOf p.parts then joinParts (p.parts.drop REDDIT_ROOT.length)
  else joinParts p.parts

/-- The recursive `walk` closure of `indexing.extract_chunks_from_python_file`
on a list of sibling nodes, returning the chunks it appends in order:
class nodes emit a `class` chunk then are descended into with
`parent_kind="class"`; function nodes emit a `method` chunk when the current
`parent_kind` is `"class"` and a `function` chunk otherwise, then are
descended into with `parent_kind` set to that kind; all other nodes are
traversed transparently. -/
def walk (source : String) (p : PyPath) : List TSNode → Option String → List CodeChunk
  | [], _ => []
  | child :: rest, parent_kind =>
    match child with
    | .node typ sp ep _sb _eb cs =>
      if typ = "class_definition" then
        let name := firstIdentifierName source cs
        let doc := get_docstring_from_body source child
        let code := node_text source child
        ⟨try_relative_path p, sp.fst + 1, ep.fst + 1, "class", name,
          some ("class " ++ name), doc, code⟩
          :: (walk source p cs (some ("class")) ++ walk source p rest parent_kind)
      else if typ = "function_definition" then
        let name := firstIdentifierName source cs
        let doc := get_docstring_from_body source child
        let signature := get_signature_from_function source child
        let code := node_text source child
        let kind := if parent_kind = some ("class") then "method" else "function"
        ⟨try_relative_path p, sp.fst + 1, ep.fst + 1, kind, name,
          some signature, doc, code⟩
          :: (walk source p cs (some kind) ++ walk source p rest parent_kind)
      else
        walk source p cs parent_kind ++ walk source p rest parent_kind

/-- One parsed Python file: the decoded byte content and the tree-sitter
parse tree (always present — tree-sitter never fails to produce a tree). -/
structure PyFile where
  content : String
  tree : TSNode

/-- A filesystem: which paths are readable and what `read_bytes` yields.
`Except.error` models an I/O exception (`OSError`) raised by `read_bytes`. -/
abbrev FileSys : Type := List (PyPath × Except String PyFile)

/-- `path.read_bytes()`: the file's content, or the raised I/O error; a path
absent from the filesystem raises `FileNotFoundError`. -/
def readBytes (fs : FileSys) (p : PyPath) : Except String PyFile :=
  match fs.find? (fun e => e.fst = p) with
  | some e => e.snd
  | none => Except.error ("FileNotFoundError")

/-- The whole-file chunk emitted first for every successfully read file:
lines `1` to newline-count + 1, kind `file`, named by the file's base name,
carrying the entire decoded text, with no signature and no docstring. -/
def fileChunkOf (p : PyPath) (f : PyFile) : CodeChunk :=
  ⟨try_relative_path p, 1, f.content.data.count ('\n') + 1, "file",
    p.name, none, none, f.content⟩

/-- `indexing.extract_chunks_from_python_file`: read the file (an I/O error
propagates — the source has no handler), parse it, emit the whole-file chunk
first, then the chunks of the recursive walk from the root's children. -/
def extract_chunks_from_python_file (fs : FileSys) (p : PyPath) :
    Except String (List CodeChunk) :=
  match readBytes fs p with
  | .error e => .error e
  | .ok f =>
    let source := f.content
    .ok (fileChunkOf p f :: walk source p f.tree.children none)

/-- The accumulation loop of `indexing.collect_all_chunks` over the
enumerated `.py` files (an extraction error propagates — the source loop has
no handler, so the build stops). -/
def collectLoop (fs : FileSys) : List PyPath → List CodeChunk →
    Except String (List CodeChunk)
  | [], acc => .ok acc
  | p :: rest, acc =>
    match extract_chunks_from_python_file fs p with
    | .error e => .error e
    | .ok cs => collectLoop fs rest (acc ++ cs)

/-- `indexing.collect_all_chunks`: extract chunks from each discovered file
in order (stopping at `limit_files` when given), concatenating the results. -/
def collect_all_chunks (fs : FileSys) (pyFiles : List PyPath)
    (limit_files : Option Nat) : Except String (List CodeChunk) :=
  let files := match limit_files with
    | some n => pyFiles.take n
    | none => pyFiles
  collectLoop fs files []

/-! ## Index Store and `build_index` (`vector_store.py`)

The vector database itself (ChromaDB) is external.  Modelled from the spec:
the Index Store holds one entry per id, and writing a batch of records
replaces entries whose id already exists and appends the others (upsert —
"re-adding the same id set with new content must replace, not duplicate").
Embedding vectors are abstract: the embedding gateway is a parameter
`embed : String → E` mapping each text to its vector (same order and count
as the input batch, per the spec's gateway interface). -/

/-- One stored Index Store entry. -/
structure StoreRec (E : Type) where
  id : String
  document : String
  metadata : ChunkMeta
  embedding : E
deriving DecidableEq

/-- The Index Store state: its entries, in insertion order. -/
abbrev Store (E : Type) : Type := List (StoreRec E)

/-- Modelled from the spec: write one record — replace the entry with the
same id if present (the store holds one entry per id), else append. -/
def upsertOne : Store E → StoreRec E → Store E
  | [], r => [r]
  | x :: xs, r => if x.id = r.id then r :: xs else x :: upsertOne xs r

/-- Write a batch of records in order. -/
def upsertMany (st : Store E) : List (StoreRec E) → Store E
  | [] => st
  | r :: rs => upsertMany (upsertOne st r) rs

/-- Observable store content: the entry stored under an id. -/
def storeLookup (st : Store E) (id : String) : Option (StoreRec E) :=
  st.find? (fun x => x.id = id)

/-- `collection.add(ids, documents, metadatas, embeddings)` — the batched
store write issued by `build_index`, with the four parallel lists zipped
into records. -/
def collection_add (st : Store E) (ids documents : List String)
    (metadatas : List ChunkMeta) (embeddings : List E) : Store E :=
  upsertMany st ((((ids.zip documents).zip metadatas).zip embeddings).map
    (fun r => ⟨r.fst.fst.fst, r.fst.fst.snd, r.fst.snd, r.snd⟩))

/-- The id `build_index` derives for a chunk:
`f"{ch.file_path}:{ch.start_line}-{ch.end_line}"`. -/
def chunk_id (ch : CodeChunk) : String :=
  ch.file_path ++ ":" ++ toString ch.start_line ++ "-" ++ toString ch.end_line

/-- The metadata dict `build_index` derives for a chunk. -/
def chunk_metadata (ch : CodeChunk) : ChunkMeta :=
  ⟨ch.file_path, ch.kind, ch.name, ch.start_line, ch.end_line, "python"⟩

/-- `embeddings.embed_texts`: the external gateway, one vector per text in
order (spec interface: same order and count as the input). -/
def embed_texts (embed : String → E) (texts : List String) : List E :=
  texts.map embed

/-- The batch loop of `vector_store.build_index`: `for i in range(0, total,
batch_size)`, slice the three parallel lists to `[i : i+batch_size]`, shape
the documents, embed the shaped texts, and `collection.add` the batch with
the shaped documents.  (Python `range` with step `0` raises; the `bs = 0`
guard here only makes the model total — every result below assumes
`0 < batch_size`.) -/
def buildLoop (embed : String → E) (ids documents : List String)
    (metadatas : List ChunkMeta) (batch_size : Nat) (st : Store E) (i : Nat) :
    Store E :=
  if _h : batch_size = 0 ∨ documents.length ≤ i then st
  else
    let batch_docs_full := (documents.drop i).take batch_size
    let batch_ids := (ids.drop i).take batch_size
    let batch_meta := (metadatas.drop i).take batch_size
    let batch_docs_short := batch_docs_full.map
      (fun d => shorten_for_embedding d MAX_CHARS_FOR_EMBEDDING)
    let vectors := embed_texts embed batch_docs_short
    buildLoop embed ids documents metadatas batch_size
      (collection_add st batch_ids batch_docs_short batch_meta vectors)
      (i + batch_size)
termination_by documents.length - i
decreasing_by
  push_neg at _h
  omega

/-- `vector_store.build_index`: derive the parallel id/document/metadata
lists from the chunks, then run the batch loop from `i = 0`. -/
def build_index (embed : String → E) (st : Store E) (chunks : List CodeChunk)
    (batch_size : Nat) : Store E :=
  let ids := chunks.map chunk_id
  let documents := chunks.map CodeChunk.code
  let metadatas := chunks.map chunk_metadata
  buildLoop embed ids documents metadatas batch_size st 0

/-- The record `build_index` writes for one chunk: the shaped document and
the embedding of that same shaped text. -/
def chunkRecord (embed : String → E) (ch : CodeChunk) : StoreRec E :=
  ⟨chunk_id ch, shorten_for_embedding ch.code MAX_CHARS_FOR_EMBEDDING,
    chunk_metadata ch, embed (shorten_for_embedding ch.code MAX_CHARS_FOR_EMBEDDING)⟩

/-- The last record in a batch carrying a given id, if any (the last write
wins under upsert). -/
def findLast (rs : List (StoreRec E)) (id : String) : Option (StoreRec E) :=
  rs.reverse.find? (fun x => x.id = id)

/-! ## Specification-side definitions for the extractor invariants -/

/-- Row-range well-formedness of a forest, as tree-sitter guarantees it:
every node's rows lie within `[lo, hi]` and its children's rows lie within
the node's own rows. -/
def wfForest (lo hi : Nat) : List TSNode → Bool
  | [] => true
  | .node _ sp ep _ _ cs :: rest =>
    lo ≤ sp.fst && ep.fst ≤ hi && wfForest sp.fst ep.fst cs && wfForest lo hi rest

/-- Modelled from the spec's words, independently of `walk`: the kinds of the
declaration chunks of a forest in emission order, where a function
declaration is a `method` exactly when the type of its innermost enclosing
declaration node is `class_definition` (`encl` carries that type; it is
untouched by non-declaration nodes). -/
def declaredKinds (encl : Option String) : List TSNode → List String
  | [] => []
  | .node typ _ _ _ _ cs :: rest =>
    if typ = "class_definition" then
      "class" :: (declaredKinds (some ("class_definition")) cs ++ declaredKinds encl rest)
    else if typ = "function_definition" then
      (if encl = some ("class_definition") then "method" else "function")
        :: (declaredKinds (some ("function_definition")) cs ++ declaredKinds encl rest)
    else
      declaredKinds encl cs ++ declaredKinds encl rest

/-- Chunk `outer` spans (at least) the lines of chunk `inner`. -/
def coversLines (outer inner : CodeChunk) : Prop :=
  outer.start_line ≤ inner.start_line ∧ inner.end_line ≤ outer.end_line

/-- Every `method` chunk of the list is preceded by a `class` chunk whose
line span contains the method's span (its enclosing class chunk appears
earlier in emission order). -/
def MethodsCovered (l : List CodeChunk) : Prop :=
  ∀ i ch, l.get? i = some ch → ch.kind = "method" →
    ∃ j cl, j < i ∧ l.get? j = some cl ∧ cl.kind = "class" ∧ coversLines cl ch

/-! ## Concrete fixtures used by individual results -/

/-- A chunk whose code (600 characters) exceeds the embedding ceiling. -/
def longChunk : CodeChunk :=
  ⟨"big.py", 1, 40, "file", "big.py", none, none, String.mk (List.replicate 600 ('a'))⟩

/-- A chunk with a one-character body, well under the ceiling. -/
def tinyChunk : CodeChunk :=
  ⟨"tiny.py", 1, 1, "file", "tiny.py", none, none, "x"⟩

/-- A syntactically invalid "python" file as tree-sitter sees it: parsing
still yields a tree, with an error node under the module root. -/
def garbagePath : PyPath := ⟨["data", "reddit", "garbage.py"]⟩

def garbageFile : PyFile :=
  ⟨"???not python???", .node ("module") (0, 0) (0, 16) 0 16
    [.node ("ERROR") (0, 0) (0, 16) 0 16 []]⟩

/-- A file whose `read_bytes` raises an I/O error. -/
def unreadablePath : PyPath := ⟨["data", "reddit", "locked.py"]⟩

def cexFS : FileSys :=
  [(unreadablePath, .error ("PermissionError")), (garbagePath, .ok garbageFile)]

/-- A small readable, parseable file. -/
def tinyPath : PyPath := ⟨["data", "reddit", "tiny.py"]⟩

def tinyFile : PyFile := ⟨"x = 1\n", .node ("module") (0, 0) (1, 0) 0 6 []⟩

def tinyFS : FileSys := [(tinyPath, .ok tinyFile)]

/-- Source text of a function whose parameter list carries a type
annotation. -/
def annotatedFnText : String := "def f(x: int):\n    return x"

/-- Its `function_definition` node: the byte span covers the whole text (the
children are irrelevant to `get_signature_from_function`). -/
def annotatedFnNode : TSNode :=
  .node ("function_definition") (0, 0) (1, 12) 0 27 []

/-- `class A` with method `m` inside its body block, as tree-sitter parses
`"class A:\n    def m(self):\n        pass\n"`. -/
def sampleSource : String := "class A:\n    def m(self):\n        pass\n"

def sampleTree : List TSNode :=
  [.node ("class_definition") (0, 0) (2, 12) 0 38
    [.node ("identifier") (0, 6) (0, 7) 6 7 [],
     .node ("block") (1, 4) (2, 12) 13 38
       [.node ("function_definition") (1, 4) (2, 12) 13 38
         [.node ("identifier") (1, 8) (1, 9) 17 18 []]]]]

def samplePath : PyPath := ⟨["data", "reddit", "sample.py"]⟩

def sampleFile : PyFile := ⟨sampleSource, .node ("module") (0, 0) (3, 0) 0 39 sampleTree⟩

def sampleFS : FileSys := [(samplePath, .ok sampleFile)]

/-- An environment whose classifier always answers CHAT. -/
def chatEnv : Env Nat Nat := ⟨fun _ => "CHAT", fun _ => 0, fun _ _ => []⟩

/-- An environment whose classifier always answers CODE and whose Index
Store holds nothing. -/
def codeEnv : Env Nat Nat := ⟨fun _ => "CODE", fun _ => 0, fun _ _ => []⟩

/-! ## Results -/

/-! ### Text Shaper -/

theorem string_length_mk (l : List Char) : (String.mk l).length = l.length := rfl

/-- Claim C6, counterexample to the universal head/tail statement: at
ceiling `L = 1` the trimmed input `"ab"` has length `2 * 1`, and the claimed
shape forces `head` and `tail` of length `1 / 2 = 0`, i.e. the result would
be the bare marker — but the code returns the marker followed by the whole
input, because Python's `text[-0:]` is the entire string. -/
theorem shorten_small_ceiling_cex :
    (pyStrip ("ab")).length = 2 * 1 ∧
    shorten_for_embedding ("ab") 1 = TRUNCATION_MARKER ++ "ab" ∧
    shorten_for_embedding ("ab") 1 ≠ "" ++ TRUNCATION_MARKER ++ "" := by
  refine ⟨rfl, by decide, by decide⟩

/-- Claim C6 (amended): for every string whose trimmed length is at most the
ceiling `L`, the shaper returns the trimmed string unchanged; and for every
ceiling `L ≥ 2` and trimmed string of length `2 * L` it returns a head
segment of length `L / 2` (a prefix of the trimmed string), a tail segment
of length `L / 2` (a suffix of the trimmed string), and exactly one
truncation marker between them.  (The original claim, quantified over every
`L`, fails at `L = 1`, where the Python negative-slice quirk makes the tail
the whole string.) -/
theorem shorten_for_embedding_spec :
    (∀ s L, (pyStrip s).length ≤ L → shorten_for_embedding s L = pyStrip s) ∧
    (∀ s L, 2 ≤ L → (pyStrip s).length = 2 * L →
      shorten_for_embedding s L =
        pyTake (L / 2) (pyStrip s) ++ TRUNCATION_MARKER ++ pySliceLast (L / 2) (pyStrip s) ∧
      (pyTake (L / 2) (pyStrip s)).length = L / 2 ∧
      (pySliceLast (L / 2) (pyStrip s)).length = L / 2 ∧
      (pyTake (L / 2) (pyStrip s)).data <+: (pyStrip s).data ∧
      (pySliceLast (L / 2) (pyStrip s)).data <:+ (pyStrip s).data) := by
  constructor
  · intro s L h
    simp only [shorten_for_embedding, pyStrip] at *
    rw [if_pos h]
  · intro s L hL hlen
    have hnot : ¬ (pyStrip s).length ≤ L := by omega
    have hhalf : L / 2 ≠ 0 := by omega
    have hle : L / 2 ≤ (pyStrip s).data.length := by
      have : (pyStrip s).data.length = 2 * L := hlen
      omega
    refine ⟨?_, ?_, ?_, ?_, ?_⟩
    · simp only [shorten_for_embedding]
      rw [if_neg hnot]
    · simp only [pyTake, string_length_mk, List.length_take]
      omega
    · simp only [pySliceLast, if_neg hhalf, string_length_mk, List.length_drop]
      have : (pyStrip s).data.length = 2 * L := hlen
      omega
    · simp only [pyTake]
      exact List.take_prefix _ _
    · simp only [pySliceLast, if_neg hhalf]
      exact List.drop_suffix _ _

/-- Witness for `shorten_for_embedding_spec` at the inputs `("  ab ", 4)`
and `("abcd", 2)`. -/
theorem shorten_for_embedding_spec_witness :
    shorten_for_embedding ("  ab ") 4 = pyStrip ("  ab ") ∧
    shorten_for_embedding ("abcd") 2 =
      pyTake (2 / 2) (pyStrip ("abcd")) ++ TRUNCATION_MARKER ++ pySliceLast (2 / 2) (pyStrip ("abcd")) ∧
    (pyTake (2 / 2) (pyStrip ("abcd"))).length = 2 / 2 ∧
    (pySliceLast (2 / 2) (pyStrip ("abcd"))).length = 2 / 2 := by
  have h1 := shorten_for_embedding_spec.1 ("  ab ") 4 (by decide)
  have h2 := shorten_for_embedding_spec.2 ("abcd") 2 (by decide) (by decide)
  exact ⟨h1, h2.1, h2.2.1, h2.2.2.1⟩

/-! ### Query Router classification -/

/-- Claim C4: the classifier's decision rule over the raw generator
response: CODE-and-not-CHAT yields CODE; CHAT-and-not-CODE yields CHAT; the
empty response yields CODE; and whenever both tokens or neither token occurs
in the normalized response (the two containment tests agree), the outcome
defaults to CODE. -/
theorem classify_decision_rule :
    (∀ raw, strContains (pyUpper (pyStrip raw)) ("CODE") = true →
      strContains (pyUpper (pyStrip raw)) ("CHAT") = false →
      classify_decision raw = "CODE") ∧
    (∀ raw, strContains (pyUpper (pyStrip raw)) ("CHAT") = true →
      strContains (pyUpper (pyStrip raw)) ("CODE") = false →
      classify_decision raw = "CHAT") ∧
    classify_decision ("") = "CODE" ∧
    (∀ raw, strContains (pyUpper (pyStrip raw)) ("CODE")
        = strContains (pyUpper (pyStrip raw)) ("CHAT") →
      classify_decision raw = "CODE") := by
  refine ⟨?_, ?_, by decide, ?_⟩
  · intro raw h1 h2
    by_cases hr : raw = ""
    · subst hr; rfl
    · simp [classify_decision, hr, h1, h2]
  · intro raw h1 h2
    by_cases hr : raw = ""
    · exfalso; subst hr; exact absurd h1 (by decide)
    · simp [classify_decision, hr, h1, h2]
  · intro raw h
    by_cases hr : raw = ""
    · subst hr; rfl
    · cases hc : strContains (pyUpper (pyStrip raw)) ("CODE") <;>
        simp [classify_decision, hr, hc, hc ▸ h.symm]

/-- Witness for `classify_decision_rule` on the responses `"  Code!"`,
`"chat"`, `""`, `"CODE CHAT"` and `"nonsense"`. -/
theorem classify_decision_rule_witness :
    classify_decision ("  Code!") = "CODE" ∧
    classify_decision ("chat") = "CHAT" ∧
    classify_decision ("") = "CODE" ∧
    classify_decision ("CODE CHAT") = "CODE" ∧
    classify_decision ("nonsense") = "CODE" := by
  refine ⟨classify_decision_rule.1 ("  Code!") (by decide) (by decide),
    classify_decision_rule.2.1 ("chat") (by decide) (by decide),
    classify_decision_rule.2.2.1,
    classify_decision_rule.2.2.2 ("CODE CHAT") (by decide),
    classify_decision_rule.2.2.2 ("nonsense") (by decide)⟩

/-! ### ask control flow -/

/-- Claim C5: for a question classified CHAT, `ask` performs zero embedding
calls and zero Index Store queries, forwards the raw question (inside the
short-answer framing) to the generative capability, and returns the
generated answer with an empty snippets list and mode `"CHAT"`. -/
theorem ask_chat_skips_retrieval {E D : Type} (env : Env E D) (q : String)
    (h : classify_question env.gen q = "CHAT") :
    ask env q = (⟨env.gen (general_prompt q), [], "CHAT"⟩, ⟨0, 0⟩) := by
  simp [ask, h]

/-- Witness for `ask_chat_skips_retrieval` on an environment whose
classifier answers CHAT. -/
theorem ask_chat_skips_retrieval_witness :
    ask chatEnv ("что такое рекурсия") =
      (⟨chatEnv.gen (general_prompt ("что такое рекурсия")), [], "CHAT"⟩, ⟨0, 0⟩) :=
  ask_chat_skips_retrieval chatEnv ("что такое рекурсия") (by decide)

/-- Claim C9: for a question classified CODE on which the similarity search
returns zero matches, `ask` forwards the no-relevant-snippets framing
directly to the generative capability and returns its answer with an empty
snippets list and mode `"CODE"` — a normal response (after the one embedding
call and one store query of the search), not an error. -/
theorem ask_code_zero_matches {E D : Type} (env : Env E D) (q : String)
    (hmode : classify_question env.gen q = "CODE")
    (hq : env.query (env.embed_text q) 5 = []) :
    ask env q = (⟨env.gen (fallback_prompt q), [], "CODE"⟩, ⟨1, 1⟩) := by
  simp [ask, hmode, search_similar, hq]

/-- Witness for `ask_code_zero_matches` on an environment whose classifier
answers CODE and whose Index Store is empty. -/
theorem ask_code_zero_matches_witness :
    ask codeEnv ("где регистрация") =
      (⟨codeEnv.gen (fallback_prompt ("где регистрация")), [], "CODE"⟩, ⟨1, 1⟩) :=
  ask_code_zero_matches codeEnv ("где регистрация") (by decide) rfl

/-! ### Index Store and build_index -/

theorem storeLookup_cons {E : Type} (x : StoreRec E) (xs : Store E) (id : String) :
    storeLookup (x :: xs) id = if x.id = id then some x else storeLookup xs id := by
  simp only [storeLookup, List.find?]
  by_cases h : x.id = id <;> simp [h]

theorem storeLookup_upsertOne {E : Type} (st : Store E) (r : StoreRec E) (id : String) :
    storeLookup (upsertOne st r) id =
      if id = r.id then some r else storeLookup st id := by
  induction st with
  | nil =>
    rw [show upsertOne ([] : Store E) r = [r] from rfl, storeLookup_cons]
    by_cases h : id = r.id
    · rw [if_pos h.symm, if_pos h]
    · rw [if_neg (fun hh => h hh.symm), if_neg h]
  | cons x xs ih =>
    by_cases hx : x.id = r.id
    · rw [show upsertOne (x :: xs) r = r :: xs from by simp [upsertOne, hx],
        storeLookup_cons, storeLookup_cons]
      by_cases h : id = r.id
      · rw [if_pos h.symm, if_pos h]
      · rw [if_neg (fun hh => h hh.symm), if_neg h,
          if_neg (fun hh => h (hh.symm.trans hx))]
    · rw [show upsertOne (x :: xs) r = x :: upsertOne xs r from by simp [upsertOne, hx],
        storeLookup_cons, storeLookup_cons, ih]
      by_cases hxi : x.id = id
      · rw [if_pos hxi, if_pos hxi, if_neg (fun hh => hx (hxi.trans hh))]
      · rw [if_neg hxi, if_neg hxi]

theorem storeLookup_upsertMany {E : Type} (rs : List (StoreRec E)) (st : Store E) (id : String) :
    storeLookup (upsertMany st rs) id = (findLast rs id).or (storeLookup st id) := by
  induction rs generalizing st with
  | nil => simp [upsertMany, findLast]
  | cons r rs ih =>
    simp only [upsertMany, findLast, List.reverse_cons, List.find?_append]
    rw [ih, storeLookup_upsertOne]
    show (rs.reverse.find? fun x => decide (x.id = id)).or _ = _
    rw [Option.or_assoc]
    congr 1
    by_cases h : id = r.id
    · have hfr : (List.find? (fun x => decide (x.id = id)) [r]) = some r := by
        simp only [List.find?]
        rw [show (decide (r.id = id)) = true from by simp [h.symm]]
      rw [if_pos h, hfr]
      rfl
    · have hfr : (List.find? (fun x => decide (x.id = id)) [r]) = none := by
        simp only [List.find?]
        rw [show (decide (r.id = id)) = false from by
          simp only [decide_eq_false_iff_not]
          exact fun hh => h hh.symm]
      rw [if_neg h, hfr, Option.none_or]

theorem upsertMany_append {E : Type} (st : Store E) (a b : List (StoreRec E)) :
    upsertMany st (a ++ b) = upsertMany (upsertMany st a) b := by
  induction a generalizing st with
  | nil => simp [upsertMany]
  | cons r a ih => simp [upsertMany, ih]

theorem zip4_map_records {E : Type} (f g : CodeChunk → String) (h : CodeChunk → ChunkMeta)
    (k : CodeChunk → E) (l : List CodeChunk) :
    ((((l.map f).zip (l.map g)).zip (l.map h)).zip (l.map k)).map
        (fun r => (⟨r.fst.fst.fst, r.fst.fst.snd, r.fst.snd, r.snd⟩ : StoreRec E))
      = l.map (fun ch => (⟨f ch, g ch, h ch, k ch⟩ : StoreRec E)) := by
  induction l with
  | nil => rfl
  | cons c l ih => simp [ih]

theorem collection_add_of_chunks {E : Type} (embed : String → E) (st : Store E)
    (l : List CodeChunk) :
    collection_add st (l.map chunk_id)
      (l.map (fun ch => shorten_for_embedding ch.code MAX_CHARS_FOR_EMBEDDING))
      (l.map chunk_metadata)
      (embed_texts embed (l.map (fun ch => shorten_for_embedding ch.code MAX_CHARS_FOR_EMBEDDING)))
      = upsertMany st (l.map (chunkRecord embed)) := by
  unfold collection_add embed_texts
  rw [List.map_map, zip4_map_records]
  rfl

theorem buildLoop_eq_upsertMany {E : Type} (embed : String → E) (chunks : List CodeChunk)
    (bs : Nat) (hbs : 0 < bs) (st : Store E) (i : Nat) :
    buildLoop embed (chunks.map chunk_id) (chunks.map CodeChunk.code)
        (chunks.map chunk_metadata) bs st i
      = upsertMany st ((chunks.drop i).map (chunkRecord embed)) := by
  generalize hn : chunks.length - i = n
  induction n using Nat.strong_induction_on generalizing st i with
  | _ n ih =>
    rw [buildLoop]
    by_cases hstop : chunks.length ≤ i
    · rw [dif_pos (Or.inr (by simpa using hstop))]
      rw [List.drop_eq_nil_of_le hstop]
      rfl
    · rw [dif_neg (by push_neg; exact ⟨by omega, by simpa using not_le.mp hstop⟩)]
      have e1 : ((chunks.map chunk_id).drop i).take bs
          = ((chunks.drop i).take bs).map chunk_id := by
        rw [← List.map_drop, ← List.map_take]
      have e2 : ((chunks.map CodeChunk.code).drop i).take bs
          = ((chunks.drop i).take bs).map CodeChunk.code := by
        rw [← List.map_drop, ← List.map_take]
      have e3 : ((chunks.map chunk_metadata).drop i).take bs
          = ((chunks.drop i).take bs).map chunk_metadata := by
        rw [← List.map_drop, ← List.map_take]
      simp only [e1, e2, e3, List.map_map]
      rw [show ((fun d => shorten_for_embedding d MAX_CHARS_FOR_EMBEDDING) ∘ CodeChunk.code)
          = (fun ch => shorten_for_embedding ch.code MAX_CHARS_FOR_EMBEDDING) from rfl]
      rw [collection_add_of_chunks embed st ((chunks.drop i).take bs)]
      rw [ih (chunks.length - (i + bs)) (by omega) _ (i + bs) rfl]
      rw [← upsertMany_append, ← List.map_append]
      congr 1
      rw [← List.drop_drop, List.take_append_drop]

theorem build_index_eq_upsertMany {E : Type} (embed : String → E) (chunks : List CodeChunk)
    (bs : Nat) (hbs : 0 < bs) (st : Store E) :
    build_index embed st chunks bs = upsertMany st (chunks.map (chunkRecord embed)) := by
  unfold build_index
  simpa using buildLoop_eq_upsertMany embed chunks bs hbs st 0

theorem findLast_chunkRecords {E : Type} (embed : String → E) (chunks : List CodeChunk)
    (hnd : (chunks.map chunk_id).Nodup) (ch : CodeChunk) (hch : ch ∈ chunks) :
    findLast (chunks.map (chunkRecord embed)) (chunk_id ch)
      = some (chunkRecord embed ch) := by
  induction chunks with
  | nil => cases hch
  | cons c rest ih =>
    have hnd' : (rest.map chunk_id).Nodup := (List.nodup_cons.mp (by simpa using hnd)).2
    have hnotin : chunk_id c ∉ rest.map chunk_id := (List.nodup_cons.mp (by simpa using hnd)).1
    simp only [List.map_cons, findLast, List.reverse_cons, List.find?_append]
    rcases List.mem_cons.mp hch with hc | hc
    · subst hc
      have hnone : ((rest.map (chunkRecord embed)).reverse.find?
          fun x => decide (x.id = chunk_id ch)) = none := by
        rw [List.find?_eq_none]
        intro x hx
        simp only [decide_eq_true_eq]
        intro hxid
        rcases List.mem_map.mp (List.mem_reverse.mp hx) with ⟨ch', hch', rfl⟩
        exact hnotin (List.mem_map.mp (List.mem_reverse.mp hx) |>.elim
          (fun _ _ => (hxid ▸ List.mem_map_of_mem chunk_id hch')))
      rw [hnone, Option.none_or]
      simp [List.find?, chunkRecord]
    · rw [show (List.find? (fun x => decide (x.id = chunk_id ch))
            (List.map (chunkRecord embed) rest).reverse)
          = some (chunkRecord embed ch) from ih hnd' hc]
      rfl

/-- Claim C2: the build's write to the Index Store is idempotent — running
the build twice on the same chunk list leaves the store observably
equivalent (every id resolves to the same stored entry) to running it once.
The store itself is external; its upsert semantics (replace, don't
duplicate) is modelled from the spec's Index Store contract. -/
theorem build_index_idempotent {E : Type} (embed : String → E) (st : Store E)
    (chunks : List CodeChunk) (bs : Nat) (hbs : 0 < bs) (id : String) :
    storeLookup (build_index embed (build_index embed st chunks bs) chunks bs) id
      = storeLookup (build_index embed st chunks bs) id := by
  rw [build_index_eq_upsertMany embed chunks bs hbs,
    build_index_eq_upsertMany embed chunks bs hbs,
    storeLookup_upsertMany, storeLookup_upsertMany]
  cases findLast (chunks.map (chunkRecord embed)) id <;> rfl

/-- Witness for `build_index_idempotent` on a one-chunk build. -/
theorem build_index_idempotent_witness :
    storeLookup (build_index String.length
        (build_index String.length ([] : Store Nat) [tinyChunk] 64) [tinyChunk] 64)
        (chunk_id tinyChunk)
      = storeLookup (build_index String.length ([] : Store Nat) [tinyChunk] 64)
        (chunk_id tinyChunk) :=
  build_index_idempotent String.length [] [tinyChunk] 64 (by decide) (chunk_id tinyChunk)

set_option maxRecDepth 40000 in
/-- Claim C1, counterexample: for a chunk whose code exceeds the embedding
ceiling, the document stored by the build is the shaped (truncated) text,
not the chunk's full code — the source deliberately passes
`batch_docs_short` as `documents` to `collection.add`. -/
theorem build_document_is_shaped_cex :
    (storeLookup (build_index String.length ([] : Store Nat) [longChunk] 64)
        (chunk_id longChunk)).map StoreRec.document
      = some (shorten_for_embedding longChunk.code MAX_CHARS_FOR_EMBEDDING) ∧
    shorten_for_embedding longChunk.code MAX_CHARS_FOR_EMBEDDING ≠ longChunk.code := by
  constructor
  · rw [build_index_eq_upsertMany String.length [longChunk] 64 (by decide)]
    decide
  · decide

/-- Claim C1 (amended): for every chunk of the build (with the build's ids
pairwise distinct), the entry stored under the chunk's id carries the shaped
(truncated) text of the chunk's code as the `document`, and the embedding
vector stored alongside it is computed from that same shaped text.  (The
original claim — that the full unshaped code is stored — fails; see the
counterexample.) -/
theorem build_document_is_shaped {E : Type} (embed : String → E) (st : Store E)
    (chunks : List CodeChunk) (bs : Nat) (hbs : 0 < bs)
    (hnd : (chunks.map chunk_id).Nodup) (ch : CodeChunk) (hch : ch ∈ chunks) :
    storeLookup (build_index embed st chunks bs) (chunk_id ch)
      = some ⟨chunk_id ch, shorten_for_embedding ch.code MAX_CHARS_FOR_EMBEDDING,
          chunk_metadata ch,
          embed (shorten_for_embedding ch.code MAX_CHARS_FOR_EMBEDDING)⟩ := by
  rw [build_index_eq_upsertMany embed chunks bs hbs, storeLookup_upsertMany,
    findLast_chunkRecords embed chunks hnd ch hch]
  rfl

/-- Witness for `build_document_is_shaped` on a one-chunk build. -/
theorem build_document_is_shaped_witness :
    storeLookup (build_index String.length ([] : Store Nat) [tinyChunk] 64)
        (chunk_id tinyChunk)
      = some ⟨chunk_id tinyChunk,
          shorten_for_embedding tinyChunk.code MAX_CHARS_FOR_EMBEDDING,
          chunk_metadata tinyChunk,
          String.length (shorten_for_embedding tinyChunk.code MAX_CHARS_FOR_EMBEDDING)⟩ :=
  build_document_is_shaped String.length [] [tinyChunk] 64 (by decide) (by decide)
    tinyChunk (by decide)

/-! ### Extractor boundary behaviour -/

/-- Claim C3, counterexample: an unreadable file does not resolve to an
empty chunk list — the I/O error escapes the extractor, and the overall
build aborts instead of continuing with the remaining files; moreover a file
that does not parse as Python still yields a non-empty chunk list (the
whole-file chunk), not an empty one. -/
theorem extractor_error_cex :
    extract_chunks_from_python_file cexFS unreadablePath
      = .error ("PermissionError") ∧
    collect_all_chunks cexFS [unreadablePath, garbagePath] none
      = .error ("PermissionError") ∧
    extract_chunks_from_python_file cexFS garbagePath ≠ .ok [] := by
  refine ⟨rfl, rfl, ?_⟩
  simp [extract_chunks_from_python_file, readBytes, cexFS, garbagePath, unreadablePath]

/-- Claim C3 (amended): the extractor never throws on *parse* failures — for
every readable file, whatever its content, it resolves to the whole-file
chunk followed by the walked declaration chunks, hence never an empty list;
but an unreadable file (I/O failure) is not handled: the error propagates
out of the extractor, and the overall build stops with that error instead of
continuing with the remaining files. -/
theorem extractor_boundary_behavior :
    (∀ fs p f, readBytes fs p = .ok f →
      extract_chunks_from_python_file fs p
        = .ok (fileChunkOf p f :: walk f.content p f.tree.children none)) ∧
    (∀ fs p f, readBytes fs p = .ok f →
      extract_chunks_from_python_file fs p ≠ .ok []) ∧
    (∀ fs p e, readBytes fs p = .error e →
      extract_chunks_from_python_file fs p = .error e) ∧
    (∀ fs p e rest, readBytes fs p = .error e →
      collect_all_chunks fs (p :: rest) none = .error e) := by
  refine ⟨?_, ?_, ?_, ?_⟩
  · intro fs p f h
    simp [extract_chunks_from_python_file, h]
  · intro fs p f h
    simp [extract_chunks_from_python_file, h]
  · intro fs p e h
    simp [extract_chunks_from_python_file, h]
  · intro fs p e rest h
    simp [collect_all_chunks, collectLoop, extract_chunks_from_python_file, h]

/-- Witness for `extractor_boundary_behavior` on a readable file and an
unreadable one. -/
theorem extractor_boundary_behavior_witness :
    extract_chunks_from_python_file tinyFS tinyPath
      = .ok (fileChunkOf tinyPath tinyFile
          :: walk tinyFile.content tinyPath tinyFile.tree.children none) ∧
    extract_chunks_from_python_file cexFS unreadablePath
      = .error ("PermissionError") ∧
    collect_all_chunks cexFS [unreadablePath, garbagePath] none
      = .error ("PermissionError") :=
  ⟨extractor_boundary_behavior.1 tinyFS tinyPath tinyFile rfl,
    extractor_boundary_behavior.2.2.1 cexFS unreadablePath ("PermissionError") rfl,
    extractor_boundary_behavior.2.2.2 cexFS unreadablePath ("PermissionError")
      [garbagePath] rfl⟩

/-- Claim C10: for every readable file the extractor's output starts with
the single whole-file chunk: lines `1` to newline-count + 1, named by the
file's base name, carrying the whole decoded text as its code, with no
signature and no docstring. -/
theorem extract_first_chunk_file (fs : FileSys) (p : PyPath) (f : PyFile)
    (h : readBytes fs p = .ok f) :
    (extract_chunks_from_python_file fs p).toOption.bind List.head?
      = some ⟨try_relative_path p, 1, f.content.data.count ('\n') + 1, "file",
          p.name, none, none, f.content⟩ := by
  simp [extract_chunks_from_python_file, h, fileChunkOf, Except.toOption, Option.bind]

/-- Witness for `extract_first_chunk_file` on a small readable file. -/
theorem extract_first_chunk_file_witness :
    (extract_chunks_from_python_file tinyFS tinyPath).toOption.bind List.head?
      = some ⟨try_relative_path tinyPath, 1,
          tinyFile.content.data.count ('\n') + 1, "file",
          tinyPath.name, none, none, tinyFile.content⟩ :=
  extract_first_chunk_file tinyFS tinyPath tinyFile rfl

/-- Claim C7, the code's behaviour at a function whose parameter list
contains a type annotation: `get_signature_from_function` truncates at the
*first* colon of the node text — here the annotation colon — yielding
`"def f(x"` instead of the declaration header `"def f(x: int)"` promised by
the claim and by the function's own docstring. -/
theorem signature_splits_at_first_colon :
    get_signature_from_function annotatedFnText annotatedFnNode = "def f(x" ∧
    get_signature_from_function annotatedFnText annotatedFnNode ≠ "def f(x: int)" := by
  constructor <;> decide

/-! ### Extractor kind/order invariants -/

theorem walk_map_kind (source : String) (p : PyPath) :
    ∀ (ns : List TSNode) (pk : Option String) (encl : Option String),
      ((pk = some ("class")) ↔ (encl = some ("class_definition"))) →
      (walk source p ns pk).map CodeChunk.kind = declaredKinds encl ns := by
  intro ns pk
  induction ns, pk using walk.induct source p with
  | case1 pk =>
    intro encl _
    simp [walk, declaredKinds]
  | case2 rest pk sp ep sb eb cs ihcs ihrest =>
    intro encl hiff
    rw [walk, declaredKinds]
    simp only [if_true, List.map_cons, List.map_append]
    rw [ihcs (some ("class_definition")) (by simp), ihrest encl hiff]
  | case3 rest pk sp ep sb eb cs kind hne ihcs ihrest =>
    intro encl hiff
    have hk : kind = (if pk = some ("class") then "method" else "function") := dite_eq_ite
    rw [hk] at ihcs
    rw [walk, declaredKinds]
    rw [if_neg hne, if_neg hne, if_pos rfl, if_pos rfl]
    simp only [List.map_cons, List.map_append]
    by_cases hpk : pk = some ("class")
    · rw [if_pos hpk] at ihcs ⊢
      rw [if_pos (hiff.mp hpk)]
      rw [ihcs (some ("function_definition")) (by decide), ihrest encl hiff]
    · rw [if_neg hpk] at ihcs ⊢
      rw [if_neg (fun he => hpk (hiff.mpr he))]
      rw [ihcs (some ("function_definition")) (by decide), ihrest encl hiff]
  | case4 rest pk typ sp ep sb eb cs hne1 hne2 ihcs ihrest =>
    intro encl hiff
    rw [walk, declaredKinds]
    rw [if_neg hne1, if_neg hne1, if_neg hne2, if_neg hne2, List.map_append]
    rw [ihcs encl hiff, ihrest encl hiff]

theorem walk_chunk_bounds (source : String) (p : PyPath) :
    ∀ (ns : List TSNode) (pk : Option String) (lo hi : Nat),
      wfForest lo hi ns = true →
      ∀ ch ∈ walk source p ns pk, lo + 1 ≤ ch.start_line ∧ ch.end_line ≤ hi + 1 := by
  intro ns pk
  induction ns, pk using walk.induct source p with
  | case1 pk =>
    intro lo hi _ ch hch
    simp [walk] at hch
  | case2 rest pk sp ep sb eb cs ihcs ihrest =>
    intro lo hi hwf ch hch
    simp only [wfForest, Bool.and_eq_true, decide_eq_true_eq] at hwf
    obtain ⟨⟨⟨h1, h2⟩, h3⟩, h4⟩ := hwf
    rw [walk] at hch
    simp only [if_true, List.mem_cons, List.mem_append] at hch
    rcases hch with rfl | hc | hr
    · refine ⟨?_, ?_⟩ <;> simp <;> omega
    · have hb := ihcs sp.fst ep.fst h3 ch hc
      omega
    · exact ihrest lo hi h4 ch hr
  | case3 rest pk sp ep sb eb cs kind hne ihcs ihrest =>
    intro lo hi hwf ch hch
    simp only [wfForest, Bool.and_eq_true, decide_eq_true_eq] at hwf
    obtain ⟨⟨⟨h1, h2⟩, h3⟩, h4⟩ := hwf
    rw [walk] at hch
    rw [if_neg hne, if_pos rfl] at hch
    simp only [List.mem_cons, List.mem_append] at hch
    rcases hch with rfl | hc | hr
    · refine ⟨?_, ?_⟩ <;> simp <;> omega
    · have hb := ihcs sp.fst ep.fst h3 ch hc
      omega
    · exact ihrest lo hi h4 ch hr
  | case4 rest pk typ sp ep sb eb cs hne1 hne2 ihcs ihrest =>
    intro lo hi hwf ch hch
    simp only [wfForest, Bool.and_eq_true, decide_eq_true_eq] at hwf
    obtain ⟨⟨⟨h1, h2⟩, h3⟩, h4⟩ := hwf
    rw [walk] at hch
    rw [if_neg hne1, if_neg hne2] at hch
    rcases List.mem_append.mp hch with hc | hr
    · have hb := ihcs sp.fst ep.fst h3 ch hc
      omega
    · exact ihrest lo hi h4 ch hr

theorem methodsCovered_nil : MethodsCovered [] := by
  intro i ch h
  simp [List.get?] at h

theorem methodsCovered_append {xs ys : List CodeChunk}
    (hx : MethodsCovered xs) (hy : MethodsCovered ys) : MethodsCovered (xs ++ ys) := by
  intro i ch hget hkind
  by_cases hi : i < xs.length
  · obtain ⟨j, cl, hj, hjget, hcl, hcov⟩ :=
      hx i ch (by rwa [List.get?_append hi] at hget) hkind
    exact ⟨j, cl, hj, by rwa [List.get?_append (by omega)], hcl, hcov⟩
  · push_neg at hi
    obtain ⟨j, cl, hj, hjget, hcl, hcov⟩ :=
      hy (i - xs.length) ch (by rwa [List.get?_append_right hi] at hget) hkind
    refine ⟨xs.length + j, cl, by omega, ?_, hcl, hcov⟩
    rw [List.get?_append_right (by omega)]
    simpa using hjget

theorem methodsCovered_cons {c : CodeChunk} {l : List CodeChunk}
    (hc : ¬ c.kind = "method") (hl : MethodsCovered l) : MethodsCovered (c :: l) := by
  intro i ch hget hkind
  cases i with
  | zero =>
    simp only [List.get?] at hget
    cases hget
    exact absurd hkind hc
  | succ n =>
    have hget' : l.get? n = some ch := by simpa [List.get?] using hget
    obtain ⟨j, cl, hj, hjget, hcl, hcov⟩ := hl n ch hget' hkind
    exact ⟨j + 1, cl, by omega, by simpa [List.get?] using hjget, hcl, hcov⟩

theorem methodsCovered_class_block {c : CodeChunk} {A B : List CodeChunk}
    (hc : c.kind = "class") (hcov : ∀ ch ∈ A, coversLines c ch)
    (hB : MethodsCovered B) : MethodsCovered (c :: (A ++ B)) := by
  intro i ch hget hkind
  cases i with
  | zero =>
    simp only [List.get?] at hget
    cases hget
    rw [hkind] at hc
    simp at hc
  | succ n =>
    have hget' : (A ++ B).get? n = some ch := by simpa [List.get?] using hget
    by_cases hn : n < A.length
    · have hmem : ch ∈ A := List.get?_mem (by rwa [List.get?_append hn] at hget')
      exact ⟨0, c, by omega, rfl, hc, hcov ch hmem⟩
    · push_neg at hn
      obtain ⟨j, cl, hj, hjget, hcl, hcovj⟩ :=
        hB (n - A.length) ch (by rwa [List.get?_append_right hn] at hget') hkind
      refine ⟨A.length + j + 1, cl, by omega, ?_, hcl, hcovj⟩
      have hq : (A ++ B).get? (A.length + j) = some cl := by
        rw [List.get?_append_right (by omega)]
        simpa using hjget
      simpa [List.get?] using hq

theorem walk_methodsCovered (source : String) (p : PyPath) :
    ∀ (ns : List TSNode) (pk : Option String) (lo hi : Nat),
      wfForest lo hi ns = true → pk ≠ some ("class") →
      MethodsCovered (walk source p ns pk) := by
  intro ns pk
  induction ns, pk using walk.induct source p with
  | case1 pk =>
    intro lo hi _ _
    have h : walk source p [] pk = [] := by simp [walk]
    rw [h]
    exact methodsCovered_nil
  | case2 rest pk sp ep sb eb cs ihcs ihrest =>
    intro lo hi hwf hpk
    simp only [wfForest, Bool.and_eq_true, decide_eq_true_eq] at hwf
    obtain ⟨⟨⟨h1, h2⟩, h3⟩, h4⟩ := hwf
    rw [walk]
    simp only [if_true]
    apply methodsCovered_class_block
    · rfl
    · intro ch hch
      have hb := walk_chunk_bounds source p cs (some ("class")) sp.fst ep.fst h3 ch hch
      exact ⟨hb.1, hb.2⟩
    · exact ihrest lo hi h4 hpk
  | case3 rest pk sp ep sb eb cs kind hne ihcs ihrest =>
    intro lo hi hwf hpk
    simp only [wfForest, Bool.and_eq_true, decide_eq_true_eq] at hwf
    obtain ⟨⟨⟨h1, h2⟩, h3⟩, h4⟩ := hwf
    rw [walk]
    rw [if_neg hne, if_pos rfl]
    apply methodsCovered_cons
    · show ¬ (if pk = some ("class") then "method" else "function") = "method"
      rw [if_neg hpk]
      simp
    · apply methodsCovered_append
      · apply ihcs sp.fst ep.fst h3
        have hk : kind = (if pk = some ("class") then "method" else "function") := dite_eq_ite
        rw [hk, if_neg hpk]
        simp
      · exact ihrest lo hi h4 hpk
  | case4 rest pk typ sp ep sb eb cs hne1 hne2 ihcs ihrest =>
    intro lo hi hwf hpk
    simp only [wfForest, Bool.and_eq_true, decide_eq_true_eq] at hwf
    obtain ⟨⟨⟨h1, h2⟩, h3⟩, h4⟩ := hwf
    rw [walk]
    rw [if_neg hne1, if_neg hne2]
    exact methodsCovered_append (ihcs sp.fst ep.fst h3 hpk) (ihrest lo hi h4 hpk)

/-- Claim C8: over any row-well-formed parse forest (as tree-sitter
guarantees), the extractor emits the file chunk first and then declaration
chunks whose kinds agree position-by-position with `declaredKinds` — the
specification-side rule assigning `method` exactly to functions whose
innermost enclosing declaration node is a class (functions nested in
functions or methods get `function`) — and every `method` chunk in the
output is preceded by a `class` chunk whose line span contains it (its
enclosing class chunk appears earlier in emission order). -/
theorem extractor_kind_and_order (fs : FileSys) (p : PyPath) (f : PyFile)
    (hread : readBytes fs p = .ok f) (lo hi : Nat)
    (hwf : wfForest lo hi f.tree.children = true) :
    extract_chunks_from_python_file fs p
      = .ok (fileChunkOf p f :: walk f.content p f.tree.children none) ∧
    (walk f.content p f.tree.children none).map CodeChunk.kind
      = declaredKinds none f.tree.children ∧
    MethodsCovered (fileChunkOf p f :: walk f.content p f.tree.children none) := by
  refine ⟨?_, ?_, ?_⟩
  · simp [extract_chunks_from_python_file, hread]
  · exact walk_map_kind f.content p f.tree.children none none (by simp)
  · exact methodsCovered_cons (by simp [fileChunkOf])
      (walk_methodsCovered f.content p f.tree.children none lo hi hwf (by simp))

/-- Witness for `extractor_kind_and_order` on a file holding a class with
one method. -/
theorem extractor_kind_and_order_witness :
    extract_chunks_from_python_file sampleFS samplePath
      = .ok (fileChunkOf samplePath sampleFile
          :: walk sampleFile.content samplePath sampleFile.tree.children none) ∧
    (walk sampleFile.content samplePath sampleFile.tree.children none).map CodeChunk.kind
      = declaredKinds none sampleFile.tree.children ∧
    MethodsCovered (fileChunkOf samplePath sampleFile
      :: walk sampleFile.content samplePath sampleFile.tree.children none) :=
  extractor_kind_and_order sampleFS samplePath sampleFile rfl 0 3
    (by simp [wfForest, sampleFile, sampleTree, TSNode.children])
